import Mathlib

/-!
Shallow embedding of the SpiFlash driver (src/spiflash.cpp, src/spiflash.h)
for the 25LQ080 SPI flash chip.

The driver's observable behaviour is modelled as a trace of low-level bus
events (chip-select transitions, SPI transfers, delays, callback
invocations) together with a small mutable state: the `sharedBus` flag of
the device handle and the module-level pending-async-operation slot
(`_spiFlash`, `_callback`, `_callbackParam`).

The chip is modelled by an environment `Env`: a stream of status-register
values (one per status read the driver performs) and the four response
bytes of the JEDEC identification read.

The C++ `while (isWriteInProgress()) delay(1);` loop has no bound in the
source; it is embedded with an explicit fuel parameter bounding the number
of polling iterations, and theorems about its exit behaviour assume the
chip reports completion within the fuel.

In SPI transfer events, each clocked byte is `some b` when the driver
supplies a meaningful outgoing byte and `none` when the tx slot is
uninitialized or the tx buffer is NULL (the chip ignores those bytes).
-/

namespace SpiFlash

/-- Page size constant from spiflash.h: `static const size_t PAGE_SIZE = 256`. -/
def PAGE_SIZE : Nat := 256

/-- Status-register write-in-progress bit, `STATUS_WIP = 0x01`. -/
def STATUS_WIP : Nat := 0x01

/-- Low-level observable events emitted by the driver. -/
inductive Ev where
  | spiBegin : Ev
  | setSettings : Ev
  | csLow : Ev
  | csHigh : Ev
  | xfer : List (Option Nat) → Ev
  | delayMs : Nat → Ev
  | delayUs : Nat → Ev
  | cbInvoke : Nat → Option Nat → Ev
  deriving DecidableEq

/-- The chip/platform environment: the status byte returned by the k-th
status-register read the driver performs, and the four bytes clocked in
by the JEDEC id read. -/
structure Env where
  statusSeq : Nat → Nat
  jedec : Fin 4 → Nat

/-- Driver state: the device handle's `sharedBus` flag, the number of
status reads performed so far (index into `Env.statusSeq`), the
module-level pending-async slot (`_spiFlash`, `_callback`,
`_callbackParam`; `none` models NULL), and the emitted event trace. -/
structure DState where
  sharedBus : Bool
  readCount : Nat
  slotFlash : Option Unit
  slotCb : Option Nat
  slotParam : Option Nat
  trace : List Ev
  deriving DecidableEq

/-- State after the constructor `SpiFlash(spi, cs)`: `sharedBus` has its
field initializer `false`, the module-level slot is all NULL, nothing
emitted yet. -/
def initState : DState :=
  { sharedBus := false, readCount := 0, slotFlash := none,
    slotCb := none, slotParam := none, trace := [] }

/-- Append events to the trace. -/
def emit (s : DState) (es : List Ev) : DState :=
  { s with trace := s.trace ++ es }

/-- `SpiFlash::begin`: `spi.begin(cs); if (!sharedBus) setSpiSettings();`. -/
def begin (s : DState) : DState :=
  if s.sharedBus then emit s [Ev.spiBegin]
  else emit s [Ev.spiBegin, Ev.setSettings]

/-- `SpiFlash::beginTransaction`: if `sharedBus`, reconfigure the bus and
`delay(1)`, then drive CS low. -/
def beginTransaction (s : DState) : DState :=
  if s.sharedBus then emit s [Ev.setSettings, Ev.delayMs 1, Ev.csLow]
  else emit s [Ev.csLow]

/-- `SpiFlash::endTransaction`: drive CS high. -/
def endTransaction (s : DState) : DState :=
  emit s [Ev.csHigh]

/-- `SpiFlash::setInstWithAddr`: buf[0] = inst; buf[1..3] = the address
shifted right by 16, 8, 0 bits, each truncated to a uint8_t. -/
def setInstWithAddr (inst : Nat) (addr : Nat) : List Nat :=
  [inst % 256, (addr >>> 16) % 256, (addr >>> 8) % 256, addr % 256]

/-- `SpiFlash::jedecIdRead`: send opcode 0x9F plus three don't-care bytes,
return rxBuf[1], rxBuf[2], rxBuf[3]. -/
def jedecIdRead (env : Env) (s : DState) : (Nat × Nat × Nat) × DState :=
  let s1 := beginTransaction s
  let s2 := emit s1 [Ev.xfer [some 0x9f, none, none, none]]
  let s3 := endTransaction s2
  ((env.jedec 1, env.jedec 2, env.jedec 3), s3)

/-- `SpiFlash::isValidChip`: read the JEDEC id and compare against
0x9D, 0x13, 0x44. (The `Serial.printlnf` logging call is not modelled.) -/
def isValidChip (env : Env) (s : DState) : Bool × DState :=
  let r := jedecIdRead env s
  (r.1.1 == 0x9d && r.1.2.1 == 0x13 && r.1.2.2 == 0x44, r.2)

/-- `SpiFlash::readStatus`: send opcode 0x05 plus one don't-care byte;
the returned value is rxBuf[1], supplied by the environment's status
stream at the current read index. -/
def readStatus (env : Env) (s : DState) : Nat × DState :=
  let s1 := beginTransaction s
  let s2 := emit s1 [Ev.xfer [some 0x05, none]]
  let s3 := endTransaction s2
  (env.statusSeq s.readCount, { s3 with readCount := s3.readCount + 1 })

/-- `SpiFlash::isWriteInProgress`: `(readStatus() & STATUS_WIP) != 0`. -/
def isWriteInProgress (env : Env) (s : DState) : Bool × DState :=
  let r := readStatus env s
  ((r.1 &&& STATUS_WIP) != 0, r.2)

/-- `SpiFlash::waitForWriteComplete`: `while (isWriteInProgress()) delay(1);`.
The fuel bounds the number of polling iterations (the source loop is
unbounded). -/
def waitForWriteComplete (env : Env) : Nat → DState → DState
  | 0, s => s
  | fuel + 1, s =>
    let r := isWriteInProgress env s
    if r.1 then waitForWriteComplete env fuel (emit r.2 [Ev.delayMs 1])
    else r.2

/-- `SpiFlash::writeStatus`: wait for write completion, then send
opcode 0x01 followed by the status byte. (Note: the source does not call
`writeEnable()` here.) -/
def writeStatus (env : Env) (fuel : Nat) (status : Nat) (s : DState) : DState :=
  let s1 := waitForWriteComplete env fuel s
  let s2 := beginTransaction s1
  let s3 := emit s2 [Ev.xfer [some 0x01, some (status % 256)]]
  endTransaction s3

/-- `SpiFlash::writeEnable`: send opcode 0x06 in its own transaction, then
`delayMicroseconds(3)`. -/
def writeEnable (s : DState) : DState :=
  let s1 := beginTransaction s
  let s2 := emit s1 [Ev.xfer [some 0x06]]
  let s3 := endTransaction s2
  emit s3 [Ev.delayUs 3]

/-- `SpiFlash::readPageCommon`: frame the READ (0x03) command, begin the
transaction, send the 4-byte header, then clock `bufLen` bytes into the
caller's buffer (NULL tx). The completion argument of the second transfer
(NULL for sync, `_completion` for async) is handled by the callers. -/
def readPageCommon (addr : Nat) (bufLen : Nat) (s : DState) : DState :=
  let tx := (setInstWithAddr 0x03 addr).map some
  let s1 := beginTransaction s
  let s2 := emit s1 [Ev.xfer tx]
  emit s2 [Ev.xfer (List.replicate bufLen none)]

/-- `SpiFlash::readPageSync`: `readPageCommon` with a NULL completion,
then end the transaction. -/
def readPageSync (addr : Nat) (bufLen : Nat) (s : DState) : DState :=
  endTransaction (readPageCommon addr bufLen s)

/-- Record the module-level pending-async slot:
`_spiFlash = this; _callback = callback; _callbackParam = param;`. -/
def recordSlot (cb : Option Nat) (param : Option Nat) (s : DState) : DState :=
  { s with slotFlash := some (), slotCb := cb, slotParam := param }

/-- `SpiFlash::readPageAsync`: record the slot, then `readPageCommon`
with `_completion` as the transfer-complete callback. -/
def readPageAsync (addr : Nat) (bufLen : Nat) (cb : Option Nat)
    (param : Option Nat) (s : DState) : DState :=
  readPageCommon addr bufLen (recordSlot cb param s)

/-- `SpiFlash::writePageCommon`: frame the PAGE_PROG (0x02) command, issue
`writeEnable()`, begin the transaction, send the 4-byte header, then clock
out the payload bytes. The buffer is modelled as the list of its bytes. -/
def writePageCommon (addr : Nat) (buf : List Nat) (s : DState) : DState :=
  let tx := (setInstWithAddr 0x02 addr).map some
  let s1 := writeEnable s
  let s2 := beginTransaction s1
  let s3 := emit s2 [Ev.xfer tx]
  emit s3 [Ev.xfer (buf.map some)]

/-- `SpiFlash::writePageSync`: wait for completion, `writePageCommon` with
NULL completion, end the transaction, wait for completion again. -/
def writePageSync (env : Env) (fuel : Nat) (addr : Nat) (buf : List Nat)
    (s : DState) : DState :=
  let s1 := waitForWriteComplete env fuel s
  let s2 := writePageCommon addr buf s1
  let s3 := endTransaction s2
  waitForWriteComplete env fuel s3

/-- `SpiFlash::writePageAsync`: wait for prior write completion, record
the slot, then `writePageCommon` with `_completion`. -/
def writePageAsync (env : Env) (fuel : Nat) (addr : Nat) (buf : List Nat)
    (cb : Option Nat) (param : Option Nat) (s : DState) : DState :=
  let s1 := waitForWriteComplete env fuel s
  writePageCommon addr buf (recordSlot cb param s1)

/-- `SpiFlash::_completion` (invoked by the platform when the async
transfer finishes): `_spiFlash->endTransaction(); _spiFlash = NULL;` then,
if `_callback` is non-NULL, invoke it with `_callbackParam` and clear both. -/
def completionStep (s : DState) : DState :=
  let s1 := endTransaction s
  let s2 := { s1 with slotFlash := none }
  match s2.slotCb with
  | some cb =>
      let s3 := emit s2 [Ev.cbInvoke cb s2.slotParam]
      { s3 with slotCb := none, slotParam := none }
  | none => s2

/-- `SpiFlash::sectorErase`: wait, frame 0xD7 with address, write-enable,
send in one transaction, wait again. -/
def sectorErase (env : Env) (fuel : Nat) (addr : Nat) (s : DState) : DState :=
  let s1 := waitForWriteComplete env fuel s
  let tx := (setInstWithAddr 0xD7 addr).map some
  let s2 := writeEnable s1
  let s3 := beginTransaction s2
  let s4 := emit s3 [Ev.xfer tx]
  let s5 := endTransaction s4
  waitForWriteComplete env fuel s5

/-- `SpiFlash::blockErase`: like `sectorErase` with opcode 0xD8. -/
def blockErase (env : Env) (fuel : Nat) (addr : Nat) (s : DState) : DState :=
  let s1 := waitForWriteComplete env fuel s
  let tx := (setInstWithAddr 0xD8 addr).map some
  let s2 := writeEnable s1
  let s3 := beginTransaction s2
  let s4 := emit s3 [Ev.xfer tx]
  let s5 := endTransaction s4
  waitForWriteComplete env fuel s5

/-- `SpiFlash::chipErase`: wait, write-enable, send the single byte 0xC7,
wait again. -/
def chipErase (env : Env) (fuel : Nat) (s : DState) : DState :=
  let s1 := waitForWriteComplete env fuel s
  let s2 := writeEnable s1
  let s3 := beginTransaction s2
  let s4 := emit s3 [Ev.xfer [some 0xC7]]
  let s5 := endTransaction s4
  waitForWriteComplete env fuel s5

/-- One loop iteration's byte count in `readDataSync`/`writeDataSync`:
`pageOffset = addr % PAGE_SIZE; pageStart = addr - pageOffset;
count = (pageStart + PAGE_SIZE) - addr; if (count > bufLen) count = bufLen;`. -/
def pageCountFor (addr : Nat) (bufLen : Nat) : Nat :=
  let pageOffset := addr % PAGE_SIZE
  let pageStart := addr - pageOffset
  let count := (pageStart + PAGE_SIZE) - addr
  if count > bufLen then bufLen else count

theorem pageCountFor_eq_min (addr bufLen : Nat) :
    pageCountFor addr bufLen = min (PAGE_SIZE - addr % PAGE_SIZE) bufLen := by
  have h1 : addr % PAGE_SIZE ≤ addr := Nat.mod_le _ _
  have h2 : addr % PAGE_SIZE < PAGE_SIZE := Nat.mod_lt _ (by decide)
  simp only [pageCountFor, PAGE_SIZE] at *
  split <;> omega

theorem pageCountFor_pos (addr bufLen : Nat) (h : 0 < bufLen) :
    0 < pageCountFor addr bufLen := by
  have h2 : addr % PAGE_SIZE < PAGE_SIZE := Nat.mod_lt _ (by decide)
  rw [pageCountFor_eq_min]
  simp only [PAGE_SIZE] at *
  omega

theorem pageCountFor_le (addr bufLen : Nat) :
    pageCountFor addr bufLen ≤ bufLen := by
  rw [pageCountFor_eq_min]; omega

/-- The sequence of (address, count) single-page sub-operations performed
by the loop in `readDataSync`/`writeDataSync`. -/
def splitOps (addr : Nat) (bufLen : Nat) : List (Nat × Nat) :=
  if h : bufLen = 0 then []
  else
    (addr, pageCountFor addr bufLen) ::
      splitOps (addr + pageCountFor addr bufLen) (bufLen - pageCountFor addr bufLen)
termination_by bufLen
decreasing_by
  have := pageCountFor_pos addr bufLen (Nat.pos_of_ne_zero h)
  have := pageCountFor_le addr bufLen
  omega

/-- The addresses covered by a list of (address, count) sub-operations,
in order. -/
def covered : List (Nat × Nat) → List Nat
  | [] => []
  | p :: rest => List.range' p.1 p.2 ++ covered rest

/-- `SpiFlash::readDataSync`: loop performing `readPageSync` on each
single-page piece. -/
def readDataSync (addr : Nat) (bufLen : Nat) (s : DState) : DState :=
  if h : bufLen = 0 then s
  else
    readDataSync (addr + pageCountFor addr bufLen) (bufLen - pageCountFor addr bufLen)
      (readPageSync addr (pageCountFor addr bufLen) s)
termination_by bufLen
decreasing_by
  have := pageCountFor_pos addr bufLen (Nat.pos_of_ne_zero h)
  have := pageCountFor_le addr bufLen
  omega

/-- `SpiFlash::writeDataSync`: loop performing `writePageSync` on each
single-page piece; the buffer cursor is modelled by take/drop on the byte
list (bufLen is the buffer's length). -/
def writeDataSync (env : Env) (fuel : Nat) (addr : Nat) (buf : List Nat)
    (s : DState) : DState :=
  if h : buf.length = 0 then s
  else
    writeDataSync env fuel (addr + pageCountFor addr buf.length)
      (buf.drop (pageCountFor addr buf.length))
      (writePageSync env fuel addr (buf.take (pageCountFor addr buf.length)) s)
termination_by buf.length
decreasing_by
  have := pageCountFor_pos addr buf.length (Nat.pos_of_ne_zero h)
  have := pageCountFor_le addr buf.length
  simp only [List.length_drop]
  omega

/-- The (address, payload-slice) single-page sub-operations performed by
`writeDataSync`, with the byte slices of the caller's buffer. -/
def splitWrites (addr : Nat) (buf : List Nat) : List (Nat × List Nat) :=
  if h : buf.length = 0 then []
  else
    (addr, buf.take (pageCountFor addr buf.length)) ::
      splitWrites (addr + pageCountFor addr buf.length)
        (buf.drop (pageCountFor addr buf.length))
termination_by buf.length
decreasing_by
  have := pageCountFor_pos addr buf.length (Nat.pos_of_ne_zero h)
  have := pageCountFor_le addr buf.length
  simp only [List.length_drop]
  omega

/-- A concrete environment: the chip always reports status 0 (no write in
progress) and JEDEC response bytes 0. -/
def env0 : Env := { statusSeq := fun _ => 0, jedec := fun _ => 0 }

/-- A concrete environment whose first status read reports a write in
progress and whose later reads report idle. -/
def env1 : Env :=
  { statusSeq := fun k => if k = 0 then 1 else 0, jedec := fun _ => 0 }

theorem splitOps_mem (addr bufLen : Nat) :
    ∀ p ∈ splitOps addr bufLen,
      0 < p.2 ∧ p.2 ≤ PAGE_SIZE ∧ p.1 % PAGE_SIZE + p.2 ≤ PAGE_SIZE := by
  induction addr, bufLen using splitOps.induct with
  | case1 addr => simp [splitOps]
  | case2 addr bufLen h ih =>
    rw [splitOps]
    simp only [h, dite_false]
    intro p hp
    rcases List.mem_cons.mp hp with hc | hc
    · subst hc
      have h2 : addr % PAGE_SIZE < PAGE_SIZE := Nat.mod_lt _ (by decide)
      have hc2 := pageCountFor_eq_min addr bufLen
      simp only [PAGE_SIZE] at *
      constructor
      · have := pageCountFor_pos addr bufLen (Nat.pos_of_ne_zero h)
        simpa using this
      · omega
    · exact ih p hc

theorem covered_splitOps (addr bufLen : Nat) :
    covered (splitOps addr bufLen) = List.range' addr bufLen := by
  induction addr, bufLen using splitOps.induct with
  | case1 addr => simp [splitOps, covered]
  | case2 addr bufLen h ih =>
    rw [splitOps]
    simp only [h, dite_false, covered, ih]
    have hle := pageCountFor_le addr bufLen
    have harr := List.range'_append addr (pageCountFor addr bufLen)
      (bufLen - pageCountFor addr bufLen) 1
    simp only [Nat.one_mul, List.range'_one] at harr ⊢
    rw [harr]
    congr 1
    omega

theorem length_splitOps (addr bufLen : Nat) :
    (splitOps addr bufLen).length =
      if bufLen = 0 then 0
      else (addr + bufLen - 1) / PAGE_SIZE - addr / PAGE_SIZE + 1 := by
  induction addr, bufLen using splitOps.induct with
  | case1 addr => simp [splitOps]
  | case2 addr bufLen h ih =>
    rw [splitOps]
    simp only [dif_neg h, List.length_cons, ih, if_neg h]
    have hc := pageCountFor_eq_min addr bufLen
    have hm : addr % PAGE_SIZE < PAGE_SIZE := Nat.mod_lt _ (by decide)
    simp only [PAGE_SIZE] at hc hm ⊢
    split <;> omega

theorem readDataSync_eq_foldl (addr bufLen : Nat) (s : DState) :
    readDataSync addr bufLen s =
      List.foldl (fun st p => readPageSync p.1 p.2 st) s (splitOps addr bufLen) := by
  induction addr, bufLen, s using readDataSync.induct with
  | case1 addr s => simp [readDataSync, splitOps]
  | case2 addr bufLen s h ih =>
    rw [readDataSync, splitOps]
    simp only [dif_neg h, List.foldl_cons]
    exact ih

theorem writeDataSync_eq_foldl (env : Env) (fuel : Nat) (addr : Nat)
    (buf : List Nat) (s : DState) :
    writeDataSync env fuel addr buf s =
      List.foldl (fun st p => writePageSync env fuel p.1 p.2 st) s
        (splitWrites addr buf) := by
  induction addr, buf, s using writeDataSync.induct env fuel with
  | case1 addr buf s h => simp [writeDataSync, splitWrites, h]
  | case2 addr buf s h ih =>
    rw [writeDataSync, splitWrites]
    simp only [dif_neg h, List.foldl_cons]
    exact ih

theorem splitWrites_map (addr : Nat) (buf : List Nat) :
    (splitWrites addr buf).map (fun p => (p.1, p.2.length)) =
      splitOps addr buf.length := by
  induction addr, buf using splitWrites.induct with
  | case1 addr buf h => simp [splitWrites, splitOps, h]
  | case2 addr buf h ih =>
    rw [splitWrites, splitOps]
    have hle := pageCountFor_le addr buf.length
    simp only [dif_neg h, List.map_cons, List.length_take, List.length_drop,
      min_eq_left hle, ih]

@[simp] theorem emit_sharedBus (s : DState) (l : List Ev) :
    (emit s l).sharedBus = s.sharedBus := rfl

@[simp] theorem emit_readCount (s : DState) (l : List Ev) :
    (emit s l).readCount = s.readCount := rfl

@[simp] theorem emit_slotFlash (s : DState) (l : List Ev) :
    (emit s l).slotFlash = s.slotFlash := rfl

@[simp] theorem emit_slotCb (s : DState) (l : List Ev) :
    (emit s l).slotCb = s.slotCb := rfl

@[simp] theorem emit_slotParam (s : DState) (l : List Ev) :
    (emit s l).slotParam = s.slotParam := rfl

@[simp] theorem emit_trace (s : DState) (l : List Ev) :
    (emit s l).trace = s.trace ++ l := rfl

theorem emit_emit (s : DState) (l1 l2 : List Ev) :
    emit (emit s l1) l2 = emit s (l1 ++ l2) := by
  simp [emit]

theorem beginTransaction_eq (s : DState) (hs : s.sharedBus = false) :
    beginTransaction s = emit s [Ev.csLow] := by
  simp [beginTransaction, hs]

@[simp] theorem beginTransaction_sharedBus (s : DState) :
    (beginTransaction s).sharedBus = s.sharedBus := by
  unfold beginTransaction; split <;> rfl

@[simp] theorem beginTransaction_readCount (s : DState) :
    (beginTransaction s).readCount = s.readCount := by
  unfold beginTransaction; split <;> rfl

@[simp] theorem beginTransaction_slotFlash (s : DState) :
    (beginTransaction s).slotFlash = s.slotFlash := by
  unfold beginTransaction; split <;> rfl

@[simp] theorem beginTransaction_slotCb (s : DState) :
    (beginTransaction s).slotCb = s.slotCb := by
  unfold beginTransaction; split <;> rfl

@[simp] theorem beginTransaction_slotParam (s : DState) :
    (beginTransaction s).slotParam = s.slotParam := by
  unfold beginTransaction; split <;> rfl

@[simp] theorem readStatus_fst (env : Env) (s : DState) :
    (readStatus env s).1 = env.statusSeq s.readCount := rfl

@[simp] theorem readStatus_sharedBus (env : Env) (s : DState) :
    ((readStatus env s).2).sharedBus = s.sharedBus := by
  simp [readStatus, endTransaction]

@[simp] theorem readStatus_readCount (env : Env) (s : DState) :
    ((readStatus env s).2).readCount = s.readCount + 1 := by
  simp [readStatus, endTransaction]

@[simp] theorem readStatus_slotFlash (env : Env) (s : DState) :
    ((readStatus env s).2).slotFlash = s.slotFlash := by
  simp [readStatus, endTransaction]

@[simp] theorem readStatus_slotCb (env : Env) (s : DState) :
    ((readStatus env s).2).slotCb = s.slotCb := by
  simp [readStatus, endTransaction]

@[simp] theorem readStatus_slotParam (env : Env) (s : DState) :
    ((readStatus env s).2).slotParam = s.slotParam := by
  simp [readStatus, endTransaction]

theorem readStatus_eq (env : Env) (s : DState) (hs : s.sharedBus = false) :
    (readStatus env s).2 =
      { s with readCount := s.readCount + 1,
               trace := s.trace ++ [Ev.csLow, Ev.xfer [some 0x05, none], Ev.csHigh] } := by
  simp [readStatus, beginTransaction_eq _ hs, endTransaction, emit]

theorem wait_sharedBus (env : Env) (fuel : Nat) (s : DState) :
    (waitForWriteComplete env fuel s).sharedBus = s.sharedBus := by
  induction fuel generalizing s with
  | zero => rfl
  | succ f ih =>
    rw [waitForWriteComplete]
    split
    · rw [ih]; simp [isWriteInProgress]
    · simp [isWriteInProgress]

theorem wait_slotFlash (env : Env) (fuel : Nat) (s : DState) :
    (waitForWriteComplete env fuel s).slotFlash = s.slotFlash := by
  induction fuel generalizing s with
  | zero => rfl
  | succ f ih =>
    rw [waitForWriteComplete]
    split
    · rw [ih]; simp [isWriteInProgress]
    · simp [isWriteInProgress]

theorem wait_slotCb (env : Env) (fuel : Nat) (s : DState) :
    (waitForWriteComplete env fuel s).slotCb = s.slotCb := by
  induction fuel generalizing s with
  | zero => rfl
  | succ f ih =>
    rw [waitForWriteComplete]
    split
    · rw [ih]; simp [isWriteInProgress]
    · simp [isWriteInProgress]

theorem wait_slotParam (env : Env) (fuel : Nat) (s : DState) :
    (waitForWriteComplete env fuel s).slotParam = s.slotParam := by
  induction fuel generalizing s with
  | zero => rfl
  | succ f ih =>
    rw [waitForWriteComplete]
    split
    · rw [ih]; simp [isWriteInProgress]
    · simp [isWriteInProgress]

theorem wait_clear (env : Env) (fuel : Nat) (s : DState) (hf : 0 < fuel)
    (hs : s.sharedBus = false)
    (h : env.statusSeq s.readCount &&& STATUS_WIP = 0) :
    waitForWriteComplete env fuel s =
      { s with readCount := s.readCount + 1,
               trace := s.trace ++ [Ev.csLow, Ev.xfer [some 0x05, none], Ev.csHigh] } := by
  cases fuel with
  | zero => exact absurd hf (by omega)
  | succ f =>
    rw [waitForWriteComplete]
    have hb : ((isWriteInProgress env s).1 : Bool) = false := by
      simp [isWriteInProgress, h]
    rw [if_neg (by simp [hb])]
    simp [isWriteInProgress, readStatus_eq env s hs]

theorem wait_busy_step (env : Env) (f : Nat) (s : DState)
    (hs : s.sharedBus = false)
    (hb : env.statusSeq s.readCount &&& STATUS_WIP ≠ 0) :
    waitForWriteComplete env (f + 1) s =
      waitForWriteComplete env f
        { s with readCount := s.readCount + 1,
                 trace := s.trace ++ [Ev.csLow, Ev.xfer [some 0x05, none],
                   Ev.csHigh, Ev.delayMs 1] } := by
  rw [waitForWriteComplete]
  have hbt : ((isWriteInProgress env s).1 : Bool) = true := by
    simp [isWriteInProgress, hb]
  rw [if_pos (by simp [hbt])]
  congr 1
  rw [isWriteInProgress, readStatus_eq env s hs]
  simp [emit]

theorem wait_exit (env : Env) (fuel : Nat) :
    ∀ s : DState,
      (∃ k, k < fuel ∧ env.statusSeq (s.readCount + k) &&& STATUS_WIP = 0) →
      s.readCount < (waitForWriteComplete env fuel s).readCount ∧
      env.statusSeq ((waitForWriteComplete env fuel s).readCount - 1) &&&
        STATUS_WIP = 0 := by
  induction fuel with
  | zero =>
    intro s h
    obtain ⟨k, hk, _⟩ := h
    omega
  | succ f ih =>
    intro s h
    obtain ⟨k, hk, hclear⟩ := h
    by_cases hb : env.statusSeq s.readCount &&& STATUS_WIP = 0
    · rw [waitForWriteComplete]
      have hbf : ((isWriteInProgress env s).1 : Bool) = false := by
        simp [isWriteInProgress, hb]
      rw [if_neg (by simp [hbf])]
      refine ⟨by simp [isWriteInProgress], ?_⟩
      simp only [isWriteInProgress, readStatus_readCount]
      simpa using hb
    · rw [waitForWriteComplete]
      have hbt : ((isWriteInProgress env s).1 : Bool) = true := by
        simp [isWriteInProgress, hb]
      rw [if_pos (by simp [hbt])]
      have hrc : (emit (isWriteInProgress env s).2 [Ev.delayMs 1]).readCount =
          s.readCount + 1 := by
        simp [isWriteInProgress]
      have hk1 : k ≠ 0 := by
        intro h0
        rw [h0] at hclear
        simp at hclear
        exact hb (by simpa using hclear)
      have hshift : s.readCount + 1 + (k - 1) = s.readCount + k := by omega
      have hclear2 : env.statusSeq
          ((emit (isWriteInProgress env s).2 [Ev.delayMs 1]).readCount + (k - 1)) &&&
          STATUS_WIP = 0 := by
        rw [hrc, hshift]; exact hclear
      have hres := ih (emit (isWriteInProgress env s).2 [Ev.delayMs 1])
        ⟨k - 1, by omega, hclear2⟩
      rw [hrc] at hres
      exact ⟨lt_of_le_of_lt (Nat.le_succ s.readCount) hres.1, hres.2⟩

theorem writeEnable_eq (s : DState) (hs : s.sharedBus = false) :
    writeEnable s =
      emit s [Ev.csLow, Ev.xfer [some 0x06], Ev.csHigh, Ev.delayUs 3] := by
  unfold writeEnable endTransaction
  rw [beginTransaction_eq _ hs]
  simp [emit_emit]

theorem readPageCommon_eq (addr bufLen : Nat) (s : DState)
    (hs : s.sharedBus = false) :
    readPageCommon addr bufLen s =
      emit s [Ev.csLow, Ev.xfer ((setInstWithAddr 0x03 addr).map some),
        Ev.xfer (List.replicate bufLen none)] := by
  unfold readPageCommon
  rw [beginTransaction_eq _ hs]
  simp [emit_emit]

theorem readPageSync_eq (addr bufLen : Nat) (s : DState)
    (hs : s.sharedBus = false) :
    readPageSync addr bufLen s =
      emit s [Ev.csLow, Ev.xfer ((setInstWithAddr 0x03 addr).map some),
        Ev.xfer (List.replicate bufLen none), Ev.csHigh] := by
  unfold readPageSync endTransaction
  rw [readPageCommon_eq addr bufLen s hs]
  simp [emit_emit]

theorem writePageCommon_eq (addr : Nat) (buf : List Nat) (s : DState)
    (hs : s.sharedBus = false) :
    writePageCommon addr buf s =
      emit s [Ev.csLow, Ev.xfer [some 0x06], Ev.csHigh, Ev.delayUs 3,
        Ev.csLow, Ev.xfer ((setInstWithAddr 0x02 addr).map some),
        Ev.xfer (buf.map some)] := by
  unfold writePageCommon
  dsimp only []
  rw [writeEnable_eq s hs]
  rw [beginTransaction_eq _ (by simp [hs])]
  simp [emit_emit]

theorem splitOps_cons (addr bufLen : Nat) (h : bufLen ≠ 0) :
    splitOps addr bufLen =
      (addr, pageCountFor addr bufLen) ::
        splitOps (addr + pageCountFor addr bufLen)
          (bufLen - pageCountFor addr bufLen) := by
  rw [splitOps]; exact dif_neg h

/-- An environment whose chip answers the JEDEC id read with the expected
identification bytes 0x9D, 0x13, 0x44. -/
def envGood : Env :=
  { statusSeq := fun _ => 0, jedec := ![0, 0x9d, 0x13, 0x44] }

/-- Claim C1: for every starting address and length, `readDataSync` and
`writeDataSync` perform exactly the single-page sub-operations `splitOps
addr bufLen` (for writes, with the matching payload slices): each
iteration's count is the distance to the next 256-byte page boundary
capped at the remaining bytes, every sub-operation is nonempty, of length
at most 256 and never crosses a 256-byte boundary, the sub-operations
exactly cover `[addr, addr+bufLen)` in order, their number is the size of
the minimal boundary-aligned cover of the range, and the loop terminates
when the remaining length reaches zero (`splitOps addr 0 = []`). -/
theorem spec_C1 (addr bufLen : Nat) :
    (∀ m, pageCountFor addr m = min (PAGE_SIZE - addr % PAGE_SIZE) m) ∧
    (bufLen ≠ 0 →
      splitOps addr bufLen =
        (addr, pageCountFor addr bufLen) ::
          splitOps (addr + pageCountFor addr bufLen)
            (bufLen - pageCountFor addr bufLen)) ∧
    (∀ p ∈ splitOps addr bufLen,
      0 < p.2 ∧ p.2 ≤ PAGE_SIZE ∧ p.1 % PAGE_SIZE + p.2 ≤ PAGE_SIZE) ∧
    covered (splitOps addr bufLen) = List.range' addr bufLen ∧
    (splitOps addr bufLen).length =
      (if bufLen = 0 then 0
       else (addr + bufLen - 1) / PAGE_SIZE - addr / PAGE_SIZE + 1) ∧
    splitOps addr 0 = [] ∧
    (∀ s, readDataSync addr bufLen s =
      List.foldl (fun st p => readPageSync p.1 p.2 st) s (splitOps addr bufLen)) ∧
    (∀ env fuel buf s, writeDataSync env fuel addr buf s =
      List.foldl (fun st p => writePageSync env fuel p.1 p.2 st) s
        (splitWrites addr buf)) ∧
    (∀ buf : List Nat,
      (splitWrites addr buf).map (fun p => (p.1, p.2.length)) =
        splitOps addr buf.length) := by
  refine ⟨fun m => pageCountFor_eq_min addr m,
    fun h => splitOps_cons addr bufLen h,
    splitOps_mem addr bufLen,
    covered_splitOps addr bufLen,
    length_splitOps addr bufLen,
    by simp [splitOps],
    fun s => readDataSync_eq_foldl addr bufLen s,
    fun env fuel buf s => writeDataSync_eq_foldl env fuel addr buf s,
    fun buf => splitWrites_map addr buf⟩

/-- Witness for C1 at addr = 100, bufLen = 300: the loop splits the
transfer into (100, 156) and (256, 144). -/
theorem spec_C1_witness :
    splitOps 100 300 = (100, 156) :: splitOps 256 144 ∧
    (0 < (100, 156).2 ∧ (100, 156).2 ≤ PAGE_SIZE ∧
      (100, 156).1 % PAGE_SIZE + (100, 156).2 ≤ PAGE_SIZE) ∧
    covered (splitOps 100 300) = List.range' 100 300 ∧
    (splitOps 100 300).length = 2 := by
  obtain ⟨h1, h2, h3, h4, h5, _, _, _, _⟩ := spec_C1 100 300
  have e1 : splitOps 100 300 = (100, 156) :: splitOps 256 144 := by
    rw [h2 (by norm_num)]
    norm_num [pageCountFor, PAGE_SIZE]
  refine ⟨e1, h3 (100, 156) ?_, h4, ?_⟩
  · rw [e1]; exact List.mem_cons_self _ _
  · rw [h5]; norm_num [PAGE_SIZE]

/-- Claim C2: the framed command header is the opcode followed by the
big-endian low 24 bits of the address; at address 0x123456 the header is
[O, 0x12, 0x34, 0x56], and addresses equal modulo 2^24 frame
identically. -/
theorem spec_C2 (O A : Nat) (hO : O < 256) :
    setInstWithAddr O A = [O, (A >>> 16) % 256, (A >>> 8) % 256, A % 256] ∧
    setInstWithAddr O 0x123456 = [O, 0x12, 0x34, 0x56] ∧
    (∀ A', A % 2 ^ 24 = A' % 2 ^ 24 →
      setInstWithAddr O A = setInstWithAddr O A') := by
  have hOm : O % 256 = O := Nat.mod_eq_of_lt hO
  refine ⟨by simp [setInstWithAddr, hOm], by simp [setInstWithAddr, hOm], ?_⟩
  intro A' hA
  have hA' : A % 16777216 = A' % 16777216 := by norm_num at hA; omega
  have e1 : A % 256 = A' % 256 := by omega
  have e2 : A / 256 % 256 = A' / 256 % 256 := by omega
  have e3 : A / 65536 % 256 = A' / 65536 % 256 := by omega
  simp only [setInstWithAddr, Nat.shiftRight_eq_div_pow]
  norm_num [e1, e2, e3]

/-- Witness for C2 at O = 2 (PAGE_PROG), A = 0x123456, and the congruent
address 0x1123456. -/
theorem spec_C2_witness :
    setInstWithAddr 2 0x123456 = [2, 0x12, 0x34, 0x56] ∧
    setInstWithAddr 2 0x123456 = setInstWithAddr 2 0x1123456 := by
  obtain ⟨_, h2, h3⟩ := spec_C2 2 0x123456 (by norm_num)
  exact ⟨h2, h3 0x1123456 (by norm_num)⟩

/-- Claim C7: `isValidChip` is true exactly when the three identification
bytes read by `jedecIdRead` (response positions 1, 2, 3, after the
discarded leading byte) are 0x9D, 0x13, 0x44, and false whenever any of
them differs; it is a total Bool-valued function (never throws). -/
theorem spec_C7 (env : Env) (s : DState) :
    (jedecIdRead env s).1 = (env.jedec 1, env.jedec 2, env.jedec 3) ∧
    ((isValidChip env s).1 = true ↔
      (env.jedec 1 = 0x9d ∧ env.jedec 2 = 0x13 ∧ env.jedec 3 = 0x44)) ∧
    ((env.jedec 1 ≠ 0x9d ∨ env.jedec 2 ≠ 0x13 ∨ env.jedec 3 ≠ 0x44) →
      (isValidChip env s).1 = false) := by
  refine ⟨rfl, ?_, ?_⟩
  · simp [isValidChip, jedecIdRead, and_assoc]
  · intro h
    simp only [isValidChip, jedecIdRead, Bool.and_eq_false_iff]
    rcases h with h | h | h
    · exact Or.inl (Or.inl (by simpa using h))
    · exact Or.inl (Or.inr (by simpa using h))
    · exact Or.inr (by simpa using h)

/-- Witness for C7: the all-zero JEDEC response is rejected and the
expected response 0x9D, 0x13, 0x44 is accepted. -/
theorem spec_C7_witness :
    (isValidChip env0 initState).1 = false ∧
    (isValidChip envGood initState).1 = true := by
  refine ⟨(spec_C7 env0 initState).2.2 (Or.inl (by norm_num [env0])), ?_⟩
  exact (spec_C7 envGood initState).2.1.mpr (by refine ⟨?_, ?_, ?_⟩ <;> decide)

/-- Claim C3: `writePageSync` performs, in order: wait for write
completion, write-enable (its own chip-select bracket around opcode 0x06
plus the 3-microsecond delay), chip-select low, the 4-byte page-program
header (opcode 0x02 plus address) followed by the payload bytes,
chip-select high, and a final wait for write completion; provided the chip
reports completion within the polling fuel, the last status poll before
returning observed no write in progress, so the write is durable on
return. -/
theorem spec_C3 (env : Env) (fuel : Nat) (addr : Nat) (buf : List Nat)
    (s : DState) (hs : s.sharedBus = false)
    (hev : ∀ i, ∃ k, k < fuel ∧ env.statusSeq (i + k) &&& STATUS_WIP = 0) :
    writePageSync env fuel addr buf s =
      waitForWriteComplete env fuel
        (emit (waitForWriteComplete env fuel s)
          [Ev.csLow, Ev.xfer [some 0x06], Ev.csHigh, Ev.delayUs 3,
           Ev.csLow, Ev.xfer ((setInstWithAddr 0x02 addr).map some),
           Ev.xfer (buf.map some), Ev.csHigh]) ∧
    env.statusSeq ((writePageSync env fuel addr buf s).readCount - 1) &&&
      STATUS_WIP = 0 := by
  have hs1 : (waitForWriteComplete env fuel s).sharedBus = false := by
    rw [wait_sharedBus]; exact hs
  have heq : writePageSync env fuel addr buf s =
      waitForWriteComplete env fuel
        (emit (waitForWriteComplete env fuel s)
          [Ev.csLow, Ev.xfer [some 0x06], Ev.csHigh, Ev.delayUs 3,
           Ev.csLow, Ev.xfer ((setInstWithAddr 0x02 addr).map some),
           Ev.xfer (buf.map some), Ev.csHigh]) := by
    unfold writePageSync endTransaction
    dsimp only []
    rw [writePageCommon_eq addr buf _ hs1]
    rw [emit_emit]
    rfl
  refine ⟨heq, ?_⟩
  rw [heq]
  exact (wait_exit env fuel _ (hev _)).2

/-- Witness for C3 with a chip that always reports idle, fuel 1,
address 5, payload [7]. -/
theorem spec_C3_witness :
    writePageSync env0 1 5 [7] initState =
      waitForWriteComplete env0 1
        (emit (waitForWriteComplete env0 1 initState)
          [Ev.csLow, Ev.xfer [some 0x06], Ev.csHigh, Ev.delayUs 3,
           Ev.csLow, Ev.xfer ((setInstWithAddr 0x02 5).map some),
           Ev.xfer ([7].map some), Ev.csHigh]) ∧
    env0.statusSeq ((writePageSync env0 1 5 [7] initState).readCount - 1) &&&
      STATUS_WIP = 0 :=
  spec_C3 env0 1 5 [7] initState rfl
    (fun _ => ⟨0, Nat.zero_lt_one, by simp [env0, STATUS_WIP]⟩)

/-- Claim C8: if the chip reports no write in progress at the current
status-read position, `waitForWriteComplete` returns after exactly one
status read (one chip-select bracket around the 0x05 command), performing
no delay and changing nothing else; re-issuing it again performs exactly
one more status read and again no delay, so re-issuing after a completed
write is idempotent. -/
theorem spec_C8 (env : Env) (fuel : Nat) (s : DState) (hf : 0 < fuel)
    (hs : s.sharedBus = false)
    (h0 : env.statusSeq s.readCount &&& STATUS_WIP = 0)
    (h1 : env.statusSeq (s.readCount + 1) &&& STATUS_WIP = 0) :
    waitForWriteComplete env fuel s =
      { s with readCount := s.readCount + 1,
               trace := s.trace ++
                 [Ev.csLow, Ev.xfer [some 0x05, none], Ev.csHigh] } ∧
    waitForWriteComplete env fuel (waitForWriteComplete env fuel s) =
      { s with readCount := s.readCount + 2,
               trace := s.trace ++
                 [Ev.csLow, Ev.xfer [some 0x05, none], Ev.csHigh,
                  Ev.csLow, Ev.xfer [some 0x05, none], Ev.csHigh] } := by
  have e1 := wait_clear env fuel s hf hs h0
  refine ⟨e1, ?_⟩
  rw [e1]
  rw [wait_clear env fuel _ hf (by simpa using hs) (by simpa using h1)]
  simp

/-- Witness for C8: with the always-idle chip, fuel 1, from the initial
state. -/
theorem spec_C8_witness :
    waitForWriteComplete env0 1 initState =
      { initState with
        readCount := initState.readCount + 1,
        trace := initState.trace ++
          [Ev.csLow, Ev.xfer [some 0x05, none], Ev.csHigh] } ∧
    waitForWriteComplete env0 1 (waitForWriteComplete env0 1 initState) =
      { initState with
        readCount := initState.readCount + 2,
        trace := initState.trace ++
          [Ev.csLow, Ev.xfer [some 0x05, none], Ev.csHigh,
           Ev.csLow, Ev.xfer [some 0x05, none], Ev.csHigh] } :=
  spec_C8 env0 1 initState (by decide) rfl (by decide) (by decide)

/-- Claim C10: `writePageAsync` first blocks polling until no prior write
is in progress, and only then records the pending callback slot and issues
the program command, while `readPageAsync` records the slot and issues the
read command immediately, with no status read and no delay; the third
conjunct shows the blocking wait actually polls (status read, delay,
status read) when the first status report shows a write in progress. -/
theorem spec_C10 (env : Env) (fuel : Nat) (addr bufLen : Nat)
    (buf : List Nat) (cb param : Option Nat) (s : DState)
    (hs : s.sharedBus = false) :
    readPageAsync addr bufLen cb param s =
      { s with slotFlash := some (), slotCb := cb, slotParam := param,
               trace := s.trace ++
                 [Ev.csLow, Ev.xfer ((setInstWithAddr 0x03 addr).map some),
                  Ev.xfer (List.replicate bufLen none)] } ∧
    writePageAsync env fuel addr buf cb param s =
      emit (recordSlot cb param (waitForWriteComplete env fuel s))
        [Ev.csLow, Ev.xfer [some 0x06], Ev.csHigh, Ev.delayUs 3,
         Ev.csLow, Ev.xfer ((setInstWithAddr 0x02 addr).map some),
         Ev.xfer (buf.map some)] ∧
    (env.statusSeq s.readCount &&& STATUS_WIP ≠ 0 → 2 ≤ fuel →
      env.statusSeq (s.readCount + 1) &&& STATUS_WIP = 0 →
      waitForWriteComplete env fuel s =
        { s with readCount := s.readCount + 2,
                 trace := s.trace ++
                   [Ev.csLow, Ev.xfer [some 0x05, none], Ev.csHigh,
                    Ev.delayMs 1,
                    Ev.csLow, Ev.xfer [some 0x05, none], Ev.csHigh] }) := by
  refine ⟨?_, ?_, ?_⟩
  · unfold readPageAsync
    rw [readPageCommon_eq addr bufLen _ (by simp [recordSlot, hs])]
    simp [recordSlot, emit]
  · unfold writePageAsync
    rw [writePageCommon_eq addr buf _
      (by simp [recordSlot, wait_sharedBus, hs])]
  · intro hbusy hfuel hidle
    obtain ⟨f, rfl⟩ : ∃ f, fuel = f + 2 := ⟨fuel - 2, by omega⟩
    rw [wait_busy_step env (f + 1) s hs hbusy]
    rw [wait_clear env (f + 1) _ (by omega) (by simpa using hs)
      (by simpa using hidle)]
    simp

/-- Witness for C10 with the busy-then-idle chip `env1`, fuel 2. -/
theorem spec_C10_witness :
    readPageAsync 9 4 (some 5) (some 6) initState =
      { initState with
        slotFlash := some (), slotCb := some 5,
        slotParam := some 6,
        trace := initState.trace ++
          [Ev.csLow, Ev.xfer ((setInstWithAddr 0x03 9).map some),
           Ev.xfer (List.replicate 4 none)] } ∧
    waitForWriteComplete env1 2 initState =
      { initState with
        readCount := initState.readCount + 2,
        trace := initState.trace ++
          [Ev.csLow, Ev.xfer [some 0x05, none], Ev.csHigh, Ev.delayMs 1,
           Ev.csLow, Ev.xfer [some 0x05, none], Ev.csHigh] } := by
  obtain ⟨h1, _h2, h3⟩ :=
    spec_C10 env1 2 9 4 [1] (some 5) (some 6) initState rfl
  exact ⟨h1, h3 (by decide) (by decide) (by decide)⟩

/-- Two back-to-back async reads from the initial state: the second is
issued while the first is still pending (no completion has fired). -/
def pendingTwice : DState :=
  readPageAsync 8 4 (some 2) (some 20)
    (readPageAsync 0 4 (some 1) (some 10) initState)

/-- Counterexample for C4 as stated: after a second `readPageAsync` is
issued while the first operation's callback record (callback 1,
context 10) is still pending and no completion has fired (no callback
invocation appears in the trace), the recorded callback has been silently
overwritten to callback 2 — the driver neither rejects nor queues the
second issue. -/
theorem spec_C4_counterexample :
    (readPageAsync 0 4 (some 1) (some 10) initState).slotCb = some 1 ∧
    pendingTwice.slotCb = some 2 ∧
    pendingTwice.slotParam = some 20 ∧
    pendingTwice.trace.filter
      (fun e => match e with | Ev.cbInvoke _ _ => true | _ => false) = [] := by
  refine ⟨?_, ?_, ?_, ?_⟩ <;> decide

/-- Claim C4, amended: the driver does not reject or queue a second
asynchronous operation issued while one is pending; `readPageAsync` and
`writePageAsync` unconditionally overwrite the module-level pending slot
(`_spiFlash`, `_callback`, `_callbackParam`) with the new callback and
context in every state, so callers must serialize async operations
themselves. -/
theorem spec_C4 (env : Env) (fuel : Nat) (addr bufLen : Nat)
    (buf : List Nat) (cb param : Option Nat) (s : DState) :
    (readPageAsync addr bufLen cb param s).slotFlash = some () ∧
    (readPageAsync addr bufLen cb param s).slotCb = cb ∧
    (readPageAsync addr bufLen cb param s).slotParam = param ∧
    (writePageAsync env fuel addr buf cb param s).slotFlash = some () ∧
    (writePageAsync env fuel addr buf cb param s).slotCb = cb ∧
    (writePageAsync env fuel addr buf cb param s).slotParam = param := by
  refine ⟨?_, ?_, ?_, ?_, ?_, ?_⟩ <;>
    simp [readPageAsync, readPageCommon, writePageAsync, writePageCommon,
      writeEnable, endTransaction, recordSlot]

/-- Claim C5 at the failing input: `writeStatus` sends the WRSR command
(opcode 0x01 with the payload byte) without any preceding write-enable
(no 0x06 transfer anywhere in its trace), although the page-program and
all three erase paths do issue write-enable; this contradicts the
documented requirement that write-enable precede every status-write. -/
theorem spec_C5 :
    (writeStatus env0 1 0x42 initState).trace =
      [Ev.csLow, Ev.xfer [some 0x05, none], Ev.csHigh,
       Ev.csLow, Ev.xfer [some 0x01, some 0x42], Ev.csHigh] ∧
    Ev.xfer [some 0x06] ∉ (writeStatus env0 1 0x42 initState).trace ∧
    Ev.xfer [some 0x06] ∈ (writePageCommon 0 [9] initState).trace ∧
    Ev.xfer [some 0x06] ∈ (sectorErase env0 1 0 initState).trace ∧
    Ev.xfer [some 0x06] ∈ (blockErase env0 1 0 initState).trace ∧
    Ev.xfer [some 0x06] ∈ (chipErase env0 1 initState).trace := by
  refine ⟨?_, ?_, ?_, ?_, ?_, ?_⟩ <;> decide

/-- An async read pending with a NULL callback but a non-NULL context. -/
def pendingNullCb : DState := readPageAsync 0 4 none (some 42) initState

/-- Counterexample for C6 as stated: when the recorded callback is NULL,
`_completion` skips the callback branch entirely, so the recorded context
(`_callbackParam` = 42) is left in the pending slot after the completion
handler returns — the slot is not fully cleared. -/
theorem spec_C6_counterexample :
    pendingNullCb.slotParam = some 42 ∧
    (completionStep pendingNullCb).slotParam = some 42 ∧
    (completionStep pendingNullCb).slotParam ≠ none := by
  refine ⟨?_, ?_, ?_⟩ <;> decide

/-- Claim C6, amended: on the completion notification the driver first
releases the bus (chip-select inactive) and clears the device-handle slot;
if the recorded callback is non-null it is then invoked exactly once with
the recorded context, and the callback and context slots are cleared
before the handler returns; if the recorded callback is null, nothing is
invoked and the context slot is left unchanged. -/
theorem spec_C6 (s : DState) :
    (completionStep s).slotFlash = none ∧
    (∀ cb, s.slotCb = some cb →
      (completionStep s).trace =
        s.trace ++ [Ev.csHigh, Ev.cbInvoke cb s.slotParam] ∧
      (completionStep s).slotCb = none ∧
      (completionStep s).slotParam = none) ∧
    (s.slotCb = none →
      (completionStep s).trace = s.trace ++ [Ev.csHigh] ∧
      (completionStep s).slotCb = none ∧
      (completionStep s).slotParam = s.slotParam) := by
  rcases h : s.slotCb with _ | cb
  · refine ⟨?_, ?_, ?_⟩
    · simp [completionStep, endTransaction, emit, h]
    · intro cb hcb
      exact absurd hcb (by simp)
    · intro _
      refine ⟨?_, ?_, ?_⟩ <;> simp [completionStep, endTransaction, emit, h]
  · refine ⟨?_, ?_, ?_⟩
    · simp [completionStep, endTransaction, emit, h]
    · intro cb' hcb'
      injection hcb' with he
      subst he
      refine ⟨?_, ?_, ?_⟩ <;> simp [completionStep, endTransaction, emit, h]
    · intro hn
      exact absurd hn (by simp)

/-- An async read pending with callback 3 and context 30. -/
def pendingCb3 : DState := readPageAsync 0 4 (some 3) (some 30) initState

/-- Witness for the amended C6 at a concrete pending state. -/
theorem spec_C6_witness :
    (completionStep pendingCb3).slotFlash = none ∧
    (completionStep pendingCb3).trace =
      pendingCb3.trace ++ [Ev.csHigh, Ev.cbInvoke 3 pendingCb3.slotParam] ∧
    (completionStep pendingCb3).slotCb = none ∧
    (completionStep pendingCb3).slotParam = none := by
  obtain ⟨h1, h2, _⟩ := spec_C6 pendingCb3
  obtain ⟨e1, e2, e3⟩ := h2 3 (by decide)
  exact ⟨h1, e1, e2, e3⟩

/-- One driver operation extends another state without reconfiguring the
bus: `sharedBus` is unchanged and the appended trace events contain
neither a bus-settings application nor an `spi.begin` call. -/
def NoCfg (s s' : DState) : Prop :=
  s'.sharedBus = s.sharedBus ∧
  ∃ l, s'.trace = s.trace ++ l ∧ Ev.setSettings ∉ l ∧ Ev.spiBegin ∉ l

theorem NoCfg_refl (s : DState) : NoCfg s s :=
  ⟨rfl, [], by simp, by simp, by simp⟩

theorem NoCfg_trans {s1 s2 s3 : DState} (h1 : NoCfg s1 s2)
    (h2 : NoCfg s2 s3) : NoCfg s1 s3 := by
  obtain ⟨hb1, l1, ht1, hset1, hbeg1⟩ := h1
  obtain ⟨hb2, l2, ht2, hset2, hbeg2⟩ := h2
  refine ⟨hb2.trans hb1, l1 ++ l2, ?_, ?_, ?_⟩
  · rw [ht2, ht1, List.append_assoc]
  · simp only [List.mem_append, not_or]
    exact ⟨hset1, hset2⟩
  · simp only [List.mem_append, not_or]
    exact ⟨hbeg1, hbeg2⟩

theorem NoCfg_emitL (s : DState) (l : List Ev) (h1 : Ev.setSettings ∉ l)
    (h2 : Ev.spiBegin ∉ l) : NoCfg s (emit s l) :=
  ⟨rfl, l, by simp, h1, h2⟩

theorem NoCfg_recordSlot (cb param : Option Nat) (s : DState) :
    NoCfg s (recordSlot cb param s) :=
  ⟨rfl, [], by simp [recordSlot], by simp, by simp⟩

theorem NoCfg_readStatus (env : Env) (s : DState) (hs : s.sharedBus = false) :
    NoCfg s ((readStatus env s).2) := by
  rw [readStatus_eq env s hs]
  exact ⟨rfl, [Ev.csLow, Ev.xfer [some 0x05, none], Ev.csHigh], rfl,
    by decide, by decide⟩

theorem NoCfg_isWriteInProgress (env : Env) (s : DState)
    (hs : s.sharedBus = false) : NoCfg s ((isWriteInProgress env s).2) :=
  NoCfg_readStatus env s hs

theorem NoCfg_wait (env : Env) (fuel : Nat) :
    ∀ s : DState, s.sharedBus = false →
      NoCfg s (waitForWriteComplete env fuel s) := by
  induction fuel with
  | zero => intro s _; exact NoCfg_refl s
  | succ f ih =>
    intro s hs
    rw [waitForWriteComplete]
    split
    · refine NoCfg_trans ?_ (ih _ ?_)
      · exact NoCfg_trans (NoCfg_isWriteInProgress env s hs)
          (NoCfg_emitL _ [Ev.delayMs 1] (by decide) (by decide))
      · simp [isWriteInProgress, hs]
    · exact NoCfg_isWriteInProgress env s hs

theorem NoCfg_jedec (env : Env) (s : DState) (hs : s.sharedBus = false) :
    NoCfg s ((jedecIdRead env s).2) := by
  unfold jedecIdRead endTransaction
  dsimp only []
  rw [beginTransaction_eq _ hs, emit_emit, emit_emit]
  exact NoCfg_emitL _ _ (by decide) (by decide)

theorem NoCfg_isValidChip (env : Env) (s : DState) (hs : s.sharedBus = false) :
    NoCfg s ((isValidChip env s).2) :=
  NoCfg_jedec env s hs

theorem NoCfg_writeStatus (env : Env) (fuel v : Nat) (s : DState)
    (hs : s.sharedBus = false) : NoCfg s (writeStatus env fuel v s) := by
  unfold writeStatus endTransaction
  dsimp only []
  have h1 := NoCfg_wait env fuel s hs
  rw [beginTransaction_eq _ (h1.1.trans hs), emit_emit, emit_emit]
  exact NoCfg_trans h1 (NoCfg_emitL _ _ (by simp) (by simp))

theorem NoCfg_readPageSync (addr bufLen : Nat) (s : DState)
    (hs : s.sharedBus = false) : NoCfg s (readPageSync addr bufLen s) := by
  rw [readPageSync_eq addr bufLen s hs]
  exact NoCfg_emitL _ _ (by simp) (by simp)

theorem NoCfg_readPageAsync (addr bufLen : Nat) (cb param : Option Nat)
    (s : DState) (hs : s.sharedBus = false) :
    NoCfg s (readPageAsync addr bufLen cb param s) := by
  unfold readPageAsync
  refine NoCfg_trans (NoCfg_recordSlot cb param s) ?_
  rw [readPageCommon_eq _ _ _ (by simp [recordSlot, hs])]
  exact NoCfg_emitL _ _ (by simp) (by simp)

theorem NoCfg_writePageSync (env : Env) (fuel addr : Nat) (buf : List Nat)
    (s : DState) (hs : s.sharedBus = false) :
    NoCfg s (writePageSync env fuel addr buf s) := by
  unfold writePageSync endTransaction
  dsimp only []
  have h1 := NoCfg_wait env fuel s hs
  have hs1 : (waitForWriteComplete env fuel s).sharedBus = false :=
    h1.1.trans hs
  rw [writePageCommon_eq addr buf _ hs1, emit_emit]
  exact NoCfg_trans
    (NoCfg_trans h1 (NoCfg_emitL _ _ (by simp) (by simp)))
    (NoCfg_wait env fuel _ (by simp [hs1]))

theorem NoCfg_writePageAsync (env : Env) (fuel addr : Nat) (buf : List Nat)
    (cb param : Option Nat) (s : DState) (hs : s.sharedBus = false) :
    NoCfg s (writePageAsync env fuel addr buf cb param s) := by
  unfold writePageAsync
  dsimp only []
  have h1 := NoCfg_wait env fuel s hs
  have hs1 : (waitForWriteComplete env fuel s).sharedBus = false :=
    h1.1.trans hs
  rw [writePageCommon_eq _ _ _ (by simp [recordSlot, hs1])]
  exact NoCfg_trans
    (NoCfg_trans h1 (NoCfg_recordSlot cb param _))
    (NoCfg_emitL _ _ (by simp) (by simp))

theorem NoCfg_readDataSync (addr bufLen : Nat) (s : DState)
    (hs : s.sharedBus = false) : NoCfg s (readDataSync addr bufLen s) := by
  revert hs
  induction addr, bufLen, s using readDataSync.induct with
  | case1 addr s =>
    intro _
    rw [readDataSync]
    simp only [dif_pos rfl]
    exact NoCfg_refl s
  | case2 addr bufLen s h ih =>
    intro hs
    rw [readDataSync, dif_neg h]
    have h1 := NoCfg_readPageSync addr (pageCountFor addr bufLen) s hs
    exact NoCfg_trans h1 (ih (h1.1.trans hs))

theorem NoCfg_writeDataSync (env : Env) (fuel addr : Nat) (buf : List Nat)
    (s : DState) (hs : s.sharedBus = false) :
    NoCfg s (writeDataSync env fuel addr buf s) := by
  revert hs
  induction addr, buf, s using writeDataSync.induct env fuel with
  | case1 addr buf s h =>
    intro _
    rw [writeDataSync, dif_pos h]
    exact NoCfg_refl s
  | case2 addr buf s h ih =>
    intro hs
    rw [writeDataSync, dif_neg h]
    have h1 := NoCfg_writePageSync env fuel addr
      (buf.take (pageCountFor addr buf.length)) s hs
    exact NoCfg_trans h1 (ih (h1.1.trans hs))

theorem NoCfg_sectorErase (env : Env) (fuel addr : Nat) (s : DState)
    (hs : s.sharedBus = false) : NoCfg s (sectorErase env fuel addr s) := by
  unfold sectorErase endTransaction
  dsimp only []
  have h1 := NoCfg_wait env fuel s hs
  have hs1 : (waitForWriteComplete env fuel s).sharedBus = false :=
    h1.1.trans hs
  rw [writeEnable_eq _ hs1, beginTransaction_eq _ (by simp [hs1]),
    emit_emit, emit_emit, emit_emit]
  exact NoCfg_trans
    (NoCfg_trans h1 (NoCfg_emitL _ _ (by simp) (by simp)))
    (NoCfg_wait env fuel _ (by simp [hs1]))

theorem NoCfg_blockErase (env : Env) (fuel addr : Nat) (s : DState)
    (hs : s.sharedBus = false) : NoCfg s (blockErase env fuel addr s) := by
  unfold blockErase endTransaction
  dsimp only []
  have h1 := NoCfg_wait env fuel s hs
  have hs1 : (waitForWriteComplete env fuel s).sharedBus = false :=
    h1.1.trans hs
  rw [writeEnable_eq _ hs1, beginTransaction_eq _ (by simp [hs1]),
    emit_emit, emit_emit, emit_emit]
  exact NoCfg_trans
    (NoCfg_trans h1 (NoCfg_emitL _ _ (by simp) (by simp)))
    (NoCfg_wait env fuel _ (by simp [hs1]))

theorem NoCfg_chipErase (env : Env) (fuel : Nat) (s : DState)
    (hs : s.sharedBus = false) : NoCfg s (chipErase env fuel s) := by
  unfold chipErase endTransaction
  dsimp only []
  have h1 := NoCfg_wait env fuel s hs
  have hs1 : (waitForWriteComplete env fuel s).sharedBus = false :=
    h1.1.trans hs
  rw [writeEnable_eq _ hs1, beginTransaction_eq _ (by simp [hs1]),
    emit_emit, emit_emit, emit_emit]
  exact NoCfg_trans
    (NoCfg_trans h1 (NoCfg_emitL _ _ (by simp) (by simp)))
    (NoCfg_wait env fuel _ (by simp [hs1]))

theorem NoCfg_completion (s : DState) : NoCfg s (completionStep s) := by
  rcases h : s.slotCb with _ | cb
  · have e : completionStep s =
        { s with slotFlash := none, trace := s.trace ++ [Ev.csHigh] } := by
      simp [completionStep, endTransaction, emit, h]
    rw [e]
    exact ⟨rfl, [Ev.csHigh], rfl, by simp, by simp⟩
  · have e : completionStep s =
        { s with slotFlash := none, slotCb := none, slotParam := none,
                 trace := s.trace ++ [Ev.csHigh, Ev.cbInvoke cb s.slotParam] } := by
      simp [completionStep, endTransaction, emit, h]
    rw [e]
    exact ⟨rfl, [Ev.csHigh, Ev.cbInvoke cb s.slotParam], rfl, by simp, by simp⟩

/-- States reachable from the freshly constructed device handle through
the public API (plus the platform-invoked completion handler). -/
inductive Reachable : DState → Prop where
  | init : Reachable initState
  | stepBegin {s} : Reachable s → Reachable (SpiFlash.begin s)
  | stepIsValidChip {s} (env : Env) : Reachable s →
      Reachable ((isValidChip env s).2)
  | stepJedec {s} (env : Env) : Reachable s →
      Reachable ((jedecIdRead env s).2)
  | stepReadStatus {s} (env : Env) : Reachable s →
      Reachable ((readStatus env s).2)
  | stepIsWIP {s} (env : Env) : Reachable s →
      Reachable ((isWriteInProgress env s).2)
  | stepWait {s} (env : Env) (fuel : Nat) : Reachable s →
      Reachable (waitForWriteComplete env fuel s)
  | stepWriteStatus {s} (env : Env) (fuel v : Nat) : Reachable s →
      Reachable (writeStatus env fuel v s)
  | stepReadDataSync {s} (addr bufLen : Nat) : Reachable s →
      Reachable (readDataSync addr bufLen s)
  | stepReadPageSync {s} (addr bufLen : Nat) : Reachable s →
      Reachable (readPageSync addr bufLen s)
  | stepReadPageAsync {s} (addr bufLen : Nat) (cb param : Option Nat) :
      Reachable s → Reachable (readPageAsync addr bufLen cb param s)
  | stepWriteDataSync {s} (env : Env) (fuel addr : Nat) (buf : List Nat) :
      Reachable s → Reachable (writeDataSync env fuel addr buf s)
  | stepWritePageSync {s} (env : Env) (fuel addr : Nat) (buf : List Nat) :
      Reachable s → Reachable (writePageSync env fuel addr buf s)
  | stepWritePageAsync {s} (env : Env) (fuel addr : Nat) (buf : List Nat)
      (cb param : Option Nat) :
      Reachable s → Reachable (writePageAsync env fuel addr buf cb param s)
  | stepSectorErase {s} (env : Env) (fuel addr : Nat) : Reachable s →
      Reachable (sectorErase env fuel addr s)
  | stepBlockErase {s} (env : Env) (fuel addr : Nat) : Reachable s →
      Reachable (blockErase env fuel addr s)
  | stepChipErase {s} (env : Env) (fuel : Nat) : Reachable s →
      Reachable (chipErase env fuel s)
  | stepCompletion {s} : Reachable s → Reachable (completionStep s)

/-- The C9 invariant: shared-bus flag still false, and the trace holds
exactly one bus-settings application per `spi.begin` call. -/
def Inv (s : DState) : Prop :=
  s.sharedBus = false ∧
  s.trace.count Ev.setSettings = s.trace.count Ev.spiBegin

theorem Inv_of_NoCfg {s s' : DState} (h : Inv s) (hn : NoCfg s s') :
    Inv s' := by
  obtain ⟨hb, hc⟩ := h
  obtain ⟨hb', l, ht, hset, hbeg⟩ := hn
  refine ⟨hb'.trans hb, ?_⟩
  rw [ht, List.count_append, List.count_append,
    List.count_eq_zero.mpr hset, List.count_eq_zero.mpr hbeg, hc]

theorem reachable_inv {s : DState} (h : Reachable s) : Inv s := by
  induction h with
  | init => exact ⟨rfl, rfl⟩
  | @stepBegin s _ ih =>
    obtain ⟨hb, hc⟩ := ih
    have e : SpiFlash.begin s = emit s [Ev.spiBegin, Ev.setSettings] := by
      simp [SpiFlash.begin, hb]
    rw [e]
    have c1 : ([Ev.spiBegin, Ev.setSettings] : List Ev).count Ev.setSettings = 1 := by
      decide
    have c2 : ([Ev.spiBegin, Ev.setSettings] : List Ev).count Ev.spiBegin = 1 := by
      decide
    refine ⟨by simp [hb], ?_⟩
    simp only [emit_trace, List.count_append, hc, c1, c2]
  | stepIsValidChip env _ ih => exact Inv_of_NoCfg ih (NoCfg_isValidChip env _ ih.1)
  | stepJedec env _ ih => exact Inv_of_NoCfg ih (NoCfg_jedec env _ ih.1)
  | stepReadStatus env _ ih => exact Inv_of_NoCfg ih (NoCfg_readStatus env _ ih.1)
  | stepIsWIP env _ ih => exact Inv_of_NoCfg ih (NoCfg_isWriteInProgress env _ ih.1)
  | stepWait env fuel _ ih => exact Inv_of_NoCfg ih (NoCfg_wait env fuel _ ih.1)
  | stepWriteStatus env fuel v _ ih =>
    exact Inv_of_NoCfg ih (NoCfg_writeStatus env fuel v _ ih.1)
  | stepReadDataSync addr bufLen _ ih =>
    exact Inv_of_NoCfg ih (NoCfg_readDataSync addr bufLen _ ih.1)
  | stepReadPageSync addr bufLen _ ih =>
    exact Inv_of_NoCfg ih (NoCfg_readPageSync addr bufLen _ ih.1)
  | stepReadPageAsync addr bufLen cb param _ ih =>
    exact Inv_of_NoCfg ih (NoCfg_readPageAsync addr bufLen cb param _ ih.1)
  | stepWriteDataSync env fuel addr buf _ ih =>
    exact Inv_of_NoCfg ih (NoCfg_writeDataSync env fuel addr buf _ ih.1)
  | stepWritePageSync env fuel addr buf _ ih =>
    exact Inv_of_NoCfg ih (NoCfg_writePageSync env fuel addr buf _ ih.1)
  | stepWritePageAsync env fuel addr buf cb param _ ih =>
    exact Inv_of_NoCfg ih (NoCfg_writePageAsync env fuel addr buf cb param _ ih.1)
  | stepSectorErase env fuel addr _ ih =>
    exact Inv_of_NoCfg ih (NoCfg_sectorErase env fuel addr _ ih.1)
  | stepBlockErase env fuel addr _ ih =>
    exact Inv_of_NoCfg ih (NoCfg_blockErase env fuel addr _ ih.1)
  | stepChipErase env fuel _ ih =>
    exact Inv_of_NoCfg ih (NoCfg_chipErase env fuel _ ih.1)
  | stepCompletion _ ih => exact Inv_of_NoCfg ih (NoCfg_completion _)

/-- Claim C9: in every state reachable through the public API the device
handle's `sharedBus` flag is still its initial value `false`; hence
`beginTransaction` only drives chip-select low, without reconfiguring the
bus or delaying (the shared-bus branch is unreachable); `begin` applies
the SPI settings (bit order, clock speed, mode) exactly once per call,
and the trace of every reachable state holds exactly one settings
application per `spi.begin` call, so the settings are applied exactly
once, in `begin()`, and nowhere else. -/
theorem spec_C9 (s : DState) (h : Reachable s) :
    s.sharedBus = false ∧
    beginTransaction s = emit s [Ev.csLow] ∧
    SpiFlash.begin s = emit s [Ev.spiBegin, Ev.setSettings] ∧
    s.trace.count Ev.setSettings = s.trace.count Ev.spiBegin := by
  have hinv := reachable_inv h
  exact ⟨hinv.1, beginTransaction_eq s hinv.1,
    by simp [SpiFlash.begin, hinv.1], hinv.2⟩

/-- Witness for C9: the state after `begin()` from the initial state. -/
theorem spec_C9_witness :
    (SpiFlash.begin initState).sharedBus = false ∧
    beginTransaction (SpiFlash.begin initState) =
      emit (SpiFlash.begin initState) [Ev.csLow] ∧
    (SpiFlash.begin initState).trace.count Ev.setSettings =
      (SpiFlash.begin initState).trace.count Ev.spiBegin := by
  obtain ⟨h1, h2, _, h4⟩ :=
    spec_C9 (SpiFlash.begin initState) (Reachable.stepBegin Reachable.init)
  exact ⟨h1, h2, h4⟩

end SpiFlash
